import Mathlib

/-!
Verification of the cluster core of the restreamercore repository: the
replicated store (FSM), the cluster coordinator's mutation paths, the
file-to-node index, the peer metrics task, the emergency-leader sentinel and
the graceful-leave path, shallowly embedded from the Go sources.

Go maps are embedded as association lists with at-most-once keys, wall-clock
instants and durations as `Nat` in abstract units (seconds where the source
compares against second-valued constants), fallible calls as `Except`, and
goroutine bodies as pure step functions on explicit state.
-/

namespace RestreamerCore

/-- Association-list read, Go `v, ok := m[k]`: the first binding wins (states
built by the embedded operations bind each key at most once). -/
def alookup {κ β : Type} [DecidableEq κ] : List (κ × β) → κ → Option β
  | [], _ => none
  | (k, v) :: t, k' => if k' = k then some v else alookup t k'

/-- Go map write `m[k] = v`: replace the binding in place if the key is
present, else append it. -/
def aset {κ β : Type} [DecidableEq κ] : List (κ × β) → κ → β → List (κ × β)
  | [], k, v => [(k, v)]
  | (k', v') :: t, k, v => if k = k' then (k, v) :: t else (k', v') :: aset t k v

/-- Go `delete(m, k)`. -/
def aerase {κ β : Type} [DecidableEq κ] : List (κ × β) → κ → List (κ × β)
  | [], _ => []
  | (k', v') :: t, k => if k = k' then t else (k', v') :: aerase t k

/-- The association list is the image of a Go map: each key bound at most once. -/
def keysNodup {κ β : Type} (l : List (κ × β)) : Prop := (l.map Prod.fst).Nodup

instance {κ β : Type} [DecidableEq κ] (l : List (κ × β)) : Decidable (keysNodup l) := by
  unfold keysNodup
  exact List.nodupDecidable _

/-- Go `app.ProcessID`: the `(id, domain)` identity of a process. The Go store
keys its map by `ProcessID.String()`, an injective rendering of this pair, so
the pair itself serves as the key. -/
structure ProcessID where
  id : String
  domain : String
deriving DecidableEq

/-- Modelled from the spec: `app.Config` is not under `src/`. A process config
carries its `(id, domain)` identity ("ProcessRecord — identity `(id,
domain)`"); the encoder invocation fields (inputs, outputs, cleanup rules,
limits, ...) are abstracted into `payload`. -/
structure AppConfig where
  pid : ProcessID
  payload : String
deriving DecidableEq

/-- Go `Config.ProcessID()`. -/
def AppConfig.processID (c : AppConfig) : ProcessID := c.pid

/-- Modelled from the spec: `app.Config.Hash()` is not under `src/`. The spec's
"a hash-equal replacement is a no-op" compares digests of the whole config; an
ideal collision-free digest is modelled by the config itself, so `bytes.Equal`
of two hashes is equality of the two configs. -/
def AppConfig.hash (c : AppConfig) : AppConfig := c

/-- Go `store.Process` (src/unnamed/part_001): timestamps as abstract instants
with `0` for Go's zero `time.Time`; `Metadata` is `none` for a nil Go map and
`some` of an association list otherwise, with `interface\x7b\x7d` values as
opaque strings. -/
structure Process where
  createdAt : Nat
  updatedAt : Nat
  config : AppConfig
  metadata : Option (List (String × String))
deriving DecidableEq

/-- Go `identity.User`: the store inspects only the name; the credential bundle is
opaque payload. -/
structure User where
  name : String
  payload : String
deriving DecidableEq

/-- Go `access.Policy`, opaque to the store. -/
structure Policy where
  payload : String
deriving DecidableEq

/-- The FSM state: the JSON-marshalled fields of the `store` struct of
src/unnamed/part_001 (`Process`, `Users.UpdatedAt`, `Users.Users`,
`Policies.UpdatedAt`, `Policies.Policies`); the lock, callback and logger are
unexported and not part of the marshalled state. -/
structure StoreState where
  process : List (ProcessID × Process)
  usersUpdatedAt : Nat
  users : List (String × User)
  policiesUpdatedAt : Nat
  policies : List (String × List Policy)
deriving DecidableEq

/-- The error kinds of the `StoreError` strings src/unnamed/part_001 returns,
keyed by message: "... doesn't exist(s)" is `notFound`, "... already exists" is
`alreadyExists`, "invalid log entry ..." is `invalidEntry`. -/
inductive StoreErr
  | notFound
  | alreadyExists
  | invalidEntry
deriving DecidableEq

/-- Go `store.CommandUpdateProcess`. -/
structure CommandUpdateProcess where
  id : ProcessID
  config : AppConfig
deriving DecidableEq

/-- Go `store.addProcess` (src/unnamed/part_001 lines 241-261). -/
def addProcess (now : Nat) (s : StoreState) (config : AppConfig) :
    Except StoreErr StoreState :=
  match alookup s.process config.processID with
  | some _ => .error .alreadyExists
  | none =>
      .ok { s with
            process := aset s.process config.processID
              ({ createdAt := now, updatedAt := now, config := config,
                 metadata := some [] } : Process) }

/-- Go `store.removeProcess` (src/unnamed/part_001 lines 263-277). -/
def removeProcess (s : StoreState) (id : ProcessID) : Except StoreErr StoreState :=
  match alookup s.process id with
  | none => .error .notFound
  | some _ => .ok { s with process := aerase s.process id }

/-- Go `store.updateProcess` (src/unnamed/part_001 lines 279-317): absent source
id fails; a hash-equal config returns nil before any further check; a rename
onto a taken key fails; otherwise a fresh record holding only `Config` and
`UpdatedAt` replaces the old one (zero `CreatedAt`, nil `Metadata`). -/
def updateProcess (now : Nat) (s : StoreState) (cmd : CommandUpdateProcess) :
    Except StoreErr StoreState :=
  let srcid := cmd.id
  let dstid := cmd.config.processID
  match alookup s.process srcid with
  | none => .error .notFound
  | some p =>
      if p.config.hash = cmd.config.hash then
        .ok s
      else if srcid = dstid then
        .ok { s with
              process := aset s.process srcid
                ({ createdAt := 0, updatedAt := now, config := cmd.config,
                   metadata := none } : Process) }
      else
        match alookup s.process dstid with
        | some _ => .error .alreadyExists
        | none =>
            .ok { s with
                  process := aset (aerase s.process srcid) dstid
                    ({ createdAt := 0, updatedAt := now, config := cmd.config,
                       metadata := none } : Process) }

/-- Go `store.setProcessMetadata` (src/unnamed/part_001 lines 319-344). -/
def setProcessMetadata (now : Nat) (s : StoreState) (id : ProcessID)
    (key : String) (data : Option String) : Except StoreErr StoreState :=
  match alookup s.process id with
  | none => .error .notFound
  | some p =>
      let md := p.metadata.getD []
      let md := match data with
        | none => aerase md key
        | some v => aset md key v
      .ok { s with
            process := aset s.process id
              { p with metadata := some md, updatedAt := now } }

/-- Go `store.addIdentity` (src/unnamed/part_001 lines 346-359). -/
def addIdentity (now : Nat) (s : StoreState) (u : User) : Except StoreErr StoreState :=
  match alookup s.users u.name with
  | some _ => .error .alreadyExists
  | none => .ok { s with usersUpdatedAt := now, users := aset s.users u.name u }

/-- Go `store.updateIdentity` (src/unnamed/part_001 lines 361-382): silently
returns nil when the old name is absent; a rename keeps the old binding and
adds the new one, failing only when the new name is taken. -/
def updateIdentity (now : Nat) (s : StoreState) (name : String) (u : User) :
    Except StoreErr StoreState :=
  match alookup s.users name with
  | none => .ok s
  | some _ =>
      if name = u.name then
        .ok { s with usersUpdatedAt := now, users := aset s.users u.name u }
      else
        match alookup s.users u.name with
        | none => .ok { s with usersUpdatedAt := now, users := aset s.users u.name u }
        | some _ => .error .alreadyExists

/-- Go `store.removeIdentity` (src/unnamed/part_001 lines 384-394): unconditional
deletes of the identity and its policies, both timestamps bumped. -/
def removeIdentity (now : Nat) (s : StoreState) (name : String) :
    Except StoreErr StoreState :=
  .ok { s with
    usersUpdatedAt := now, users := aerase s.users name,
    policiesUpdatedAt := now, policies := aerase s.policies name }

/-- Go `store.setPolicies` (src/unnamed/part_001 lines 396-405): delete then set. -/
def setPolicies (now : Nat) (s : StoreState) (name : String) (ps : List Policy) :
    Except StoreErr StoreState :=
  .ok { s with policiesUpdatedAt := now,
               policies := aset (aerase s.policies name) name ps }

/-- The payloads each `Apply` switch arm re-marshals `Command.Data` into; the
arms decode independently (a mismatched payload decodes to the arm's zero
value), so the operation string plus the per-arm payloads determine the
behaviour. -/
structure CmdPayload where
  addProcessConfig : AppConfig
  removeProcessID : ProcessID
  updateProcessCmd : CommandUpdateProcess
  setMetaID : ProcessID
  setMetaKey : String
  setMetaData : Option String
  addIdentityUser : User
  updateIdentityName : String
  updateIdentityUser : User
  removeIdentityName : String
  setPoliciesName : String
  setPoliciesList : List Policy
deriving DecidableEq

/-- Pair an operation's `Except` result with the before-state: Go `Apply`
returns the error value and leaves the state as the operation left it. -/
def liftE (s : StoreState) : Except StoreErr StoreState → Option StoreErr × StoreState
  | .ok s1 => (none, s1)
  | .error e => (some e, s)

/-- Go `store.Apply` (src/unnamed/part_001 lines 155-239): `none` is an entry
whose JSON does not decode (a `StoreError` is returned, state untouched);
otherwise dispatch on the operation string over the eight arms; the default arm
logs "Unknown operation" and returns nil with the state untouched. -/
def storeApply (now : Nat) (s : StoreState) (entry : Option (String × CmdPayload)) :
    Option StoreErr × StoreState :=
  match entry with
  | none => (some .invalidEntry, s)
  | some (op, d) =>
      if op = "addProcess" then liftE s (addProcess now s d.addProcessConfig)
      else if op = "removeProcess" then liftE s (removeProcess s d.removeProcessID)
      else if op = "updateProcess" then liftE s (updateProcess now s d.updateProcessCmd)
      else if op = "setProcessMetadata" then
        liftE s (setProcessMetadata now s d.setMetaID d.setMetaKey d.setMetaData)
      else if op = "addIdentity" then liftE s (addIdentity now s d.addIdentityUser)
      else if op = "updateIdentity" then
        liftE s (updateIdentity now s d.updateIdentityName d.updateIdentityUser)
      else if op = "removeIdentity" then
        liftE s (removeIdentity now s d.removeIdentityName)
      else if op = "setPolicies" then
        liftE s (setPolicies now s d.setPoliciesName d.setPoliciesList)
      else (none, s)

/-- Go `store.Snapshot` (src/unnamed/part_001 lines 414-428): `json.Marshal` of
the exported fields, injective on the modelled state, so the blob is the state
itself. -/
def snapshotBlob (s : StoreState) : StoreState := s

/-- Go `json.Unmarshal` into an existing non-nil map: entries whose keys the
JSON object does not mention are kept, mentioned ones are overwritten. -/
def mergeA {κ β : Type} [DecidableEq κ] (dst snap : List (κ × β)) : List (κ × β) :=
  snap.foldl (fun acc kv => aset acc kv.1 kv.2) dst

/-- Go `store.Restore` (src/unnamed/part_001 lines 430-453): decode the blob into
the live struct (map fields merge, scalar fields are overwritten), then replace
each process's nil metadata map with an empty one. -/
def restoreStore (dst snap : StoreState) : StoreState :=
  let m : StoreState :=
    { process := mergeA dst.process snap.process
      usersUpdatedAt := snap.usersUpdatedAt
      users := mergeA dst.users snap.users
      policiesUpdatedAt := snap.policiesUpdatedAt
      policies := mergeA dst.policies snap.policies }
  { m with process := m.process.map fun kp =>
      (kp.1, { kp.2 with metadata := some (kp.2.metadata.getD []) }) }

/-- The nil-to-empty metadata normalization the restore loop performs, alone. -/
def normalizeMeta (s : StoreState) : StoreState :=
  { s with process := s.process.map fun kp =>
      (kp.1, { kp.2 with metadata := some (kp.2.metadata.getD []) }) }

/-- All three maps of the state bind each key at most once (every Go map
image does). -/
def StoreState.wf (s : StoreState) : Prop :=
  keysNodup s.process ∧ keysNodup s.users ∧ keysNodup s.policies

instance (s : StoreState) : Decidable s.wf := by
  unfold StoreState.wf
  infer_instance

/-- Every reachable store binds a process under its own config's `(id, domain)`
key: `addProcess` and `updateProcess` only ever store a record under
`Config.ProcessID().String()`. -/
def StoreState.keyed (s : StoreState) : Prop :=
  ∀ kp ∈ s.process, kp.2.config.processID = kp.1

instance (s : StoreState) : Decidable s.keyed := by
  unfold StoreState.keyed
  exact List.decidableBAll _ _

/-- The leadership and restore flags a cluster mutation path consults. -/
structure ClusterFlags where
  hasLeader : Bool
  restored : Bool
  isRaftLeader : Bool
deriving DecidableEq

/-- Modelled from the spec: the body of `cluster.IsDegraded` is not under
`src/` (only its callers are). "a publicly-queryable flag is true if (a) there
is no leader, or (b) the local FSM restore is incomplete." -/
def isDegraded (f : ClusterFlags) : Bool := !f.hasLeader || !f.restored

/-- Where a cluster mutation call ends: `errDegraded` returned `ErrDegraded`
before doing anything, `errInvalid` failed identity validation, `forwarded`
handed the request to the forwarder (nothing submitted to Raft locally),
`applied` reached `applyCommand` and submitted the command to Raft. -/
inductive MutOutcome
  | errDegraded
  | errInvalid
  | forwarded
  | applied
deriving DecidableEq

/-- Go `cluster.AddIdentity` (src/unnamed/part_002 lines 69-90); `valid` stands
for `identity.Validate()` succeeding, whose body is not under `src/` and which
runs after the degraded check. -/
def clusterAddIdentity (f : ClusterFlags) (valid : Bool) : MutOutcome :=
  if isDegraded f then .errDegraded
  else if !valid then .errInvalid
  else if !f.isRaftLeader then .forwarded
  else .applied

/-- Go `cluster.UpdateIdentity` (src/unnamed/part_002 lines 92-110). -/
def clusterUpdateIdentity (f : ClusterFlags) : MutOutcome :=
  if isDegraded f then .errDegraded
  else if !f.isRaftLeader then .forwarded
  else .applied

/-- Go `cluster.SetPolicies` (src/unnamed/part_002 lines 112-130). -/
def clusterSetPolicies (f : ClusterFlags) : MutOutcome :=
  if isDegraded f then .errDegraded
  else if !f.isRaftLeader then .forwarded
  else .applied

/-- Go `cluster.RemoveIdentity` (src/unnamed/part_002 lines 132-149). -/
def clusterRemoveIdentity (f : ClusterFlags) : MutOutcome :=
  if isDegraded f then .errDegraded
  else if !f.isRaftLeader then .forwarded
  else .applied

/-- Go `cluster.AddProcess` (src/cluster/cluster.go lines 1025-1038): no degraded
check at all; forwards when not the Raft leader, otherwise builds an
`addProcess` command and submits it via `applyCommand`. -/
def clusterAddProcess (f : ClusterFlags) : MutOutcome :=
  if !f.isRaftLeader then .forwarded
  else .applied

/-- The file index maps of the `cluster` struct (src/cluster/cluster.go):
`fileid` path to node id, `idfiles` node id to file list, `idupdate` node id to
instant of last inventory update. -/
structure ClusterIndex where
  fileid : List (String × String)
  idfiles : List (String × List String)
  idupdate : List (String × Nat)
deriving DecidableEq

/-- A `NodeState` message on the cluster updates channel: node id, `connected`
or `disconnected`, reported file list, inventory timestamp. -/
structure NodeUpdate where
  id : String
  state : String
  files : List String
  lastUpdate : Nat
deriving DecidableEq

/-- One iteration of the updates-consumer goroutine (src/cluster/cluster.go
lines 262-296): capture the node's previous file list, purge its entries from
all three maps, and on a `connected` update re-add the reported files to
`fileid` — but assign the captured previous list, not `state.Files`, to
`idfiles` (the source writes `c.idfiles[state.ID] = files`). -/
def updateStep (c : ClusterIndex) (st : NodeUpdate) : ClusterIndex :=
  let files := (alookup c.idfiles st.id).getD []
  let fileid1 := files.foldl (fun m f => aerase m f) c.fileid
  let idfiles1 := aerase c.idfiles st.id
  let idupdate1 := aerase c.idupdate st.id
  if st.state = "connected" then
    { fileid := st.files.foldl (fun m f => aset m f st.id) fileid1
      idfiles := aset idfiles1 st.id files
      idupdate := aset idupdate1 st.id st.lastUpdate }
  else
    { fileid := fileid1, idfiles := idfiles1, idupdate := idupdate1 }

/-- The fields of the proxy node that `GetURL` reads (src/unnamed/part_002):
addresses, tokens and passphrase discovered at connect time. -/
structure ClusterNodeM where
  address : String
  rtmpAddress : String
  rtmpToken : String
  srtAddress : String
  srtPassphrase : String
  srtToken : String
deriving DecidableEq

/-- Go `strings.Cut(s, ":")`: the text before the first colon and the rest. -/
def cutColon (s : String) : Option (String × String) :=
  match s.splitOn ":" with
  | [] => none
  | [_] => none
  | x :: rest => some (x, String.intercalate ":" rest)

/-- Go `url.QueryEscape`, abstracted as the identity: no claim depends on the
escaped spelling. -/
def queryEscape (s : String) : String := s

/-- Go `filepath.Join("memfs", p)` for the paths the peers report (leading
slash or plain relative path); the deeper `filepath.Clean` rules (dot segments,
duplicate separators) are not exercised by any claim. -/
def joinMemfs (p : String) : String :=
  if p.isEmpty then "memfs"
  else if p.startsWith "/" then "memfs" ++ p
  else "memfs/" ++ p

/-- Go `node.GetURL` (src/unnamed/part_002 lines 752-784): split the prefix tag
off the path and build the URL for the matching scheme; unknown or missing
prefixes fail. -/
def nodeGetURL (n : ClusterNodeM) (path : String) : Except Unit String :=
  match cutColon path with
  | none => .error ()
  | some (tag, p) =>
      if tag = "mem" then .ok (n.address ++ "/" ++ joinMemfs p)
      else if tag = "disk" then .ok (n.address ++ p)
      else if tag = "rtmp" then
        .ok (n.rtmpAddress ++ p ++
          (if n.rtmpToken.isEmpty then "" else "?token=" ++ queryEscape n.rtmpToken))
      else if tag = "srt" then
        .ok (n.srtAddress ++ "?mode=caller" ++
          (if n.srtPassphrase.isEmpty then ""
           else "&passphrase=" ++ queryEscape n.srtPassphrase) ++
          "&streamid=" ++ queryEscape ("#!:m=request,r=" ++ p ++
            (if n.srtToken.isEmpty then "" else ",token=" ++ n.srtToken)))
      else .error ()

/-- Go `cluster.GetURL` (src/cluster/cluster.go lines 808-844): resolve the owning
node, require an update record at most 2 seconds old (`time.Since(ts) >
2*time.Second` fails), require the node to be known, then build its URL; every
failure is the `NotFound` error "file not found". `now` and the stored instants
are in seconds. -/
def clusterGetURL (now : Nat) (c : ClusterIndex) (nodes : List (String × ClusterNodeM))
    (path : String) : Except Unit String :=
  match alookup c.fileid path with
  | none => .error ()
  | some id =>
      match alookup c.idupdate id with
      | none => .error ()
      | some ts =>
          if now - ts > 2 then .error ()
          else
            match alookup nodes id with
            | none => .error ()
            | some n =>
                match nodeGetURL n path with
                | .error _ => .error ()
                | .ok u => .ok u

/-- A peer resource sample (the `resources` field of the proxy node): floats as
rationals, memory byte counts as naturals. -/
structure Resources where
  ncpu : Rat
  cpu : Rat
  mem : Nat
  memTotal : Nat
deriving DecidableEq

/-- Go `uint64(v)` on a nonnegative float: truncation. -/
def ratToUInt (q : Rat) : Nat := q.floor.toNat

/-- The four locals of the metrics tick before the response loop fills them. -/
structure MetricsAcc where
  ncpu : Rat
  idle : Rat
  memTotal : Nat
  memFree : Nat
deriving DecidableEq

/-- The response loop of the metrics tick (src/unnamed/part_002 lines 443-453):
each named metric assigns its first value's number; the last occurrence wins. -/
def parseMetrics (ms : List (String × Rat)) : MetricsAcc :=
  ms.foldl
    (fun a x =>
      if x.1 = "cpu_idle" then { a with idle := x.2 }
      else if x.1 = "cpu_ncpu" then { a with ncpu := x.2 }
      else if x.1 = "mem_total" then { a with memTotal := ratToUInt x.2 }
      else if x.1 = "mem_free" then { a with memFree := ratToUInt x.2 }
      else a)
    { ncpu := 0, idle := 0, memTotal := 0, memFree := 0 }

/-- One tick of the peer metrics task (src/unnamed/part_002 lines 412-466).
`query` is what `n.peer.Metrics(...)` returned (an errored call leaves the
zero-valued response). On error the code stores the fallback sample `cpu=100,
ncpu=1, mem=0` — but, lacking a `continue`, falls through, parses the
zero-valued response and overwrites every field in the second locked block. -/
def metricsTick (res : Resources) (query : Except Unit (List (String × Rat))) :
    Resources :=
  let res1 := match query with
    | .error _ => { res with cpu := 100, ncpu := 1, mem := 0 }
    | .ok _ => res
  let ms := match query with
    | .error _ => []
    | .ok l => l
  let a := parseMetrics ms
  { res1 with
    ncpu := a.ncpu
    cpu := (100 - a.idle) * a.ncpu
    mem := if a.memTotal ≠ 0 then a.memTotal - a.memFree else 0
    memTotal := if a.memTotal ≠ 0 then a.memTotal else 0 }

/-- The sentinel's loop locals (src/cluster/cluster.go lines 1054-1101):
`start` is the reference instant for the "never"/unparseable cases,
`isEmergency` the `isEmergencyLeader` flag. -/
structure SentinelState where
  start : Nat
  isEmergency : Bool
deriving DecidableEq

/-- What the Raft stats field `last_contact` held at a tick: the literal
"never", a parseable duration (seconds), or an unparseable string. -/
inductive LastContact
  | never
  | dur (d : Nat)
  | unparseable
deriving DecidableEq

/-- The duration the sentinel derives from `last_contact` at instant `now`. -/
def contactSince (st : SentinelState) (now : Nat) (lc : LastContact) : Nat :=
  match lc with
  | .never => now - st.start
  | .dur d => d
  | .unparseable => now - st.start

/-- One sentinel tick (src/cluster/cluster.go lines 1067-1098): update the
reference instant when the duration parses, then emit `some true`
(force-leadership) only when the duration exceeds 10 s outside the emergency
state, and `some false` (release) only when it is at most 10 s inside it. -/
def sentinelTick (st : SentinelState) (now : Nat) (lc : LastContact) :
    SentinelState × Option Bool :=
  let since := contactSince st now lc
  let start1 := match lc with
    | .dur _ => now
    | _ => st.start
  if 10 < since ∧ st.isEmergency = false then
    ({ start := start1, isEmergency := true }, some true)
  else if since ≤ 10 ∧ st.isEmergency = true then
    ({ start := start1, isEmergency := false }, some false)
  else
    ({ start := start1, isEmergency := st.isEmergency }, none)

/-- Run the sentinel over a sequence of ticks, collecting the emitted signals
(`true` = force-leadership, `false` = release) in order. -/
def sentinelRun (st : SentinelState) : List (Nat × LastContact) → SentinelState × List Bool
  | [] => (st, [])
  | (now, lc) :: rest =>
      let out := sentinelTick st now lc
      let tail := sentinelRun out.1 rest
      (tail.1, match out.2 with
               | none => tail.2
               | some b => b :: tail.2)

/-- The signal list alternates, each emitted signal flipping the emergency
flag it started from. -/
def alternatesFrom (e : Bool) : List Bool → Prop
  | [] => True
  | b :: t => b = !e ∧ alternatesFrom b t

/-- The externally visible effects of `cluster.Leave`. -/
inductive LeaveAct
  | forwardLeave
  | transferLeadership
  | removeNodeCmd
  | removeServer
deriving DecidableEq

/-- The environment `cluster.Leave` runs against: the local id, the leadership
flag, the Raft configuration fetch (`(id, address)` pairs), and the results of
the calls it may make. Waiting and polling loops return regardless of the
deadline, so they are not modelled as effects. -/
structure LeaveEnv where
  selfId : String
  isRaftLeader : Bool
  config : Except Unit (List (String × String))
  forwardResult : Except Unit Unit
  transferResult : Except Unit Unit
  removeServerResult : Except Unit Unit

/-- Go `cluster.Leave` (src/cluster/cluster.go lines 353-489): result and the
ordered effects. An empty id defaults to the local id. A follower forwards and
polls. The leader counts the configured servers: removing itself is a no-op
when it is the only server, else it transfers leadership, forwards the leave to
the new leader and polls; removing another node submits `removeNode` (errors
only logged) and then removes the server from the Raft configuration. -/
def clusterLeave (env : LeaveEnv) (id0 : String) : Except Unit Unit × List LeaveAct :=
  let id := if id0.isEmpty then env.selfId else id0
  if !env.isRaftLeader then
    match env.forwardResult with
    | .error e => (.error e, [.forwardLeave])
    | .ok _ => (.ok (), [.forwardLeave])
  else
    match env.config with
    | .error e => (.error e, [])
    | .ok servers =>
        let numPeers := servers.length
        if id = env.selfId then
          if numPeers ≤ 1 then (.ok (), [])
          else
            match env.transferResult with
            | .error e => (.error e, [.transferLeadership])
            | .ok _ =>
                match env.forwardResult with
                | .error e => (.error e, [.transferLeadership, .forwardLeave])
                | .ok _ => (.ok (), [.transferLeadership, .forwardLeave])
        else
          match env.removeServerResult with
          | .error e => (.error e, [.removeNodeCmd, .removeServer])
          | .ok _ => (.ok (), [.removeNodeCmd, .removeServer])

theorem keysNodup_tail {κ β : Type} {hd : κ × β} {t : List (κ × β)}
    (h : keysNodup (hd :: t)) : keysNodup t := by
  unfold keysNodup at h ⊢
  rw [List.map_cons] at h
  exact (List.nodup_cons.mp h).2

theorem keysNodup_head {κ β : Type} {hd : κ × β} {t : List (κ × β)}
    (h : keysNodup (hd :: t)) : hd.1 ∉ t.map Prod.fst := by
  unfold keysNodup at h
  rw [List.map_cons] at h
  exact (List.nodup_cons.mp h).1

theorem alookup_mem {κ β : Type} [DecidableEq κ] {l : List (κ × β)} {k : κ} {v : β}
    (h : alookup l k = some v) : (k, v) ∈ l := by
  induction l with
  | nil => simp [alookup] at h
  | cons hd t ih =>
      obtain ⟨a, b⟩ := hd
      by_cases hk : k = a
      · subst hk
        simp [alookup] at h
        subst h
        exact List.mem_cons_self _ _
      · simp [alookup, hk] at h
        exact List.mem_cons_of_mem _ (ih h)

theorem mem_alookup {κ β : Type} [DecidableEq κ] {l : List (κ × β)}
    (hn : keysNodup l) {k : κ} {v : β} (hm : (k, v) ∈ l) : alookup l k = some v := by
  induction l with
  | nil => simp at hm
  | cons hd t ih =>
      obtain ⟨a, b⟩ := hd
      rcases List.mem_cons.mp hm with heq | ht
      · obtain ⟨h1, h2⟩ := Prod.mk.injEq .. ▸ heq
        subst h1; subst h2
        simp [alookup]
      · have hk : k ≠ a := by
          intro hka
          subst hka
          exact keysNodup_head hn (List.mem_map.mpr ⟨(k, v), ht, rfl⟩)
        simp only [alookup, if_neg hk]
        exact ih (keysNodup_tail hn) ht

theorem aset_eq_self {κ β : Type} [DecidableEq κ] {l : List (κ × β)}
    (hn : keysNodup l) {k : κ} {v : β} (h : alookup l k = some v) : aset l k v = l := by
  induction l with
  | nil => simp [alookup] at h
  | cons hd t ih =>
      obtain ⟨a, b⟩ := hd
      by_cases hk : k = a
      · subst hk
        simp [alookup] at h
        subst h
        simp [aset]
      · simp only [alookup, if_neg hk] at h
        simp only [aset, if_neg hk, List.cons.injEq, true_and]
        exact ih (keysNodup_tail hn) h

theorem foldl_aset_of_mem {κ β : Type} [DecidableEq κ] {l : List (κ × β)}
    (hn : keysNodup l) :
    ∀ xs : List (κ × β), (∀ kv ∈ xs, kv ∈ l) →
      xs.foldl (fun acc kv => aset acc kv.1 kv.2) l = l := by
  intro xs
  induction xs with
  | nil => intro _; rfl
  | cons hd t ih =>
      intro hsub
      have h1 : hd ∈ l := hsub hd (List.mem_cons_self _ _)
      have h2 : aset l hd.1 hd.2 = l :=
        aset_eq_self hn (mem_alookup hn (show (hd.1, hd.2) ∈ l from h1))
      rw [List.foldl_cons, h2]
      exact ih fun kv hkv => hsub kv (List.mem_cons_of_mem _ hkv)

theorem mergeA_self {κ β : Type} [DecidableEq κ] {l : List (κ × β)}
    (hn : keysNodup l) : mergeA l l = l :=
  foldl_aset_of_mem hn l fun _ h => h

/-- C4: restoring the snapshot of a state yields exactly the state up to the
nil-to-empty metadata normalization, so the canonical JSON before and after
agree modulo that normalization, and the three maps after the restore are
exactly the snapshot's (decoding a map over itself replaces every binding). -/
theorem snapshot_restore_is_normalization (s : StoreState) (h : s.wf) :
    restoreStore s (snapshotBlob s) = normalizeMeta s := by
  obtain ⟨h1, h2, h3⟩ := h
  unfold restoreStore snapshotBlob normalizeMeta
  rw [mergeA_self h1, mergeA_self h2, mergeA_self h3]

/-- C4 witness: a state holding one process (with a nil metadata map), one
user and one policy set round-trips to its normalization. -/
theorem snapshot_restore_is_normalization_witness :
    restoreStore
      { process := [(⟨"p", "d"⟩, ⟨1, 2, ⟨⟨"p", "d"⟩, "cfg"⟩, none⟩)],
        usersUpdatedAt := 3, users := [("u", ⟨"u", "x"⟩)],
        policiesUpdatedAt := 4, policies := [("u", [⟨"pol"⟩])] }
      (snapshotBlob
        { process := [(⟨"p", "d"⟩, ⟨1, 2, ⟨⟨"p", "d"⟩, "cfg"⟩, none⟩)],
          usersUpdatedAt := 3, users := [("u", ⟨"u", "x"⟩)],
          policiesUpdatedAt := 4, policies := [("u", [⟨"pol"⟩])] }) =
    normalizeMeta
      { process := [(⟨"p", "d"⟩, ⟨1, 2, ⟨⟨"p", "d"⟩, "cfg"⟩, none⟩)],
        usersUpdatedAt := 3, users := [("u", ⟨"u", "x"⟩)],
        policiesUpdatedAt := 4, policies := [("u", [⟨"pol"⟩])] } :=
  snapshot_restore_is_normalization _ (by decide)

theorem alookup_aset_self {κ β : Type} [DecidableEq κ] (l : List (κ × β)) (k : κ) (v : β) :
    alookup (aset l k v) k = some v := by
  induction l with
  | nil => simp [aset, alookup]
  | cons hd t ih =>
      obtain ⟨a, b⟩ := hd
      by_cases hk : k = a
      · subst hk
        simp [aset, alookup]
      · simp [aset, hk, alookup, ih]

/-- The success case of `updateProcess` shared by the update contract and the
frame analysis: once the source id resolves, the hashes differ and the target
key is the source's own or free, a fresh record carrying only the new config
and the application instant is stored under the new key. -/
theorem updateProcess_stores_fresh (now : Nat) (s : StoreState)
    (cmd : CommandUpdateProcess) (p : Process)
    (hp : alookup s.process cmd.id = some p)
    (hne : p.config.hash ≠ cmd.config.hash)
    (hfree : cmd.config.processID = cmd.id ∨ alookup s.process cmd.config.processID = none) :
    ∃ s1, updateProcess now s cmd = .ok s1 ∧
      alookup s1.process cmd.config.processID =
        some { createdAt := 0, updatedAt := now, config := cmd.config, metadata := none } := by
  rcases hfree with heq | hnone
  · refine
      ⟨{ s with process := aset s.process cmd.id ⟨0, now, cmd.config, none⟩ }, ?_, ?_⟩
    · simp only [updateProcess, hp, if_neg hne, if_pos heq.symm]
    · rw [heq]
      exact alookup_aset_self ..
  · have hid : cmd.id ≠ cmd.config.processID := by
      intro he
      rw [← he, hp] at hnone
      exact Option.noConfusion hnone
    refine
      ⟨{ s with
         process := aset (aerase s.process cmd.id) cmd.config.processID ⟨0, now, cmd.config, none⟩ },
       ?_, ?_⟩
    · simp only [updateProcess, hp, if_neg hne, if_neg hid, hnone]
    · exact alookup_aset_self ..

/-- C1: `updateProcess` fails `NotFound` when the old key is absent; under the
reachable-store invariant that each record sits under its own config's key, a
rename onto a taken key fails `AlreadyExists`; a hash-equal replacement returns
nil with the state untouched; otherwise the new config is stored under its key
with `UpdatedAt` set to the application instant. -/
theorem updateProcess_contract (now : Nat) (s : StoreState) (cmd : CommandUpdateProcess)
    (hkey : s.keyed) :
    (alookup s.process cmd.id = none →
        updateProcess now s cmd = .error .notFound) ∧
    (∀ p, alookup s.process cmd.id = some p →
        cmd.config.processID ≠ cmd.id →
        (alookup s.process cmd.config.processID).isSome →
        updateProcess now s cmd = .error .alreadyExists) ∧
    (∀ p, alookup s.process cmd.id = some p →
        p.config.hash = cmd.config.hash →
        updateProcess now s cmd = .ok s) ∧
    (∀ p, alookup s.process cmd.id = some p →
        p.config.hash ≠ cmd.config.hash →
        (cmd.config.processID = cmd.id ∨ alookup s.process cmd.config.processID = none) →
        ∃ s1, updateProcess now s cmd = .ok s1 ∧
          alookup s1.process cmd.config.processID =
            some { createdAt := 0, updatedAt := now, config := cmd.config,
                   metadata := none }) := by
  refine ⟨?_, ?_, ?_, ?_⟩
  · intro h
    simp only [updateProcess, h]
  · intro p hp hne hdst
    have hpk : p.config.processID = cmd.id := hkey (cmd.id, p) (alookup_mem hp)
    have hcfg : p.config.hash ≠ cmd.config.hash := by
      intro he
      apply hne
      rw [← hpk]
      unfold AppConfig.hash at he
      rw [he]
    obtain ⟨q, hq⟩ := Option.isSome_iff_exists.mp hdst
    simp only [updateProcess, hp, if_neg hcfg, if_neg (Ne.symm hne), hq]
  · intro p hp hhash
    simp only [updateProcess, hp, if_pos hhash]
  · intro p hp hne hfree
    exact updateProcess_stores_fresh now s cmd p hp hne hfree

/-- C1 witness: a one-process store, updated with a hash-equal config, is left
untouched (the no-op clause at a concrete input). -/
theorem updateProcess_contract_witness :
    updateProcess 7
      { process := [(⟨"p1", "d"⟩, ⟨3, 4, ⟨⟨"p1", "d"⟩, "x"⟩, some []⟩)],
        usersUpdatedAt := 0, users := [], policiesUpdatedAt := 0, policies := [] }
      ⟨⟨"p1", "d"⟩, ⟨⟨"p1", "d"⟩, "x"⟩⟩ =
    .ok { process := [(⟨"p1", "d"⟩, ⟨3, 4, ⟨⟨"p1", "d"⟩, "x"⟩, some []⟩)],
          usersUpdatedAt := 0, users := [], policiesUpdatedAt := 0, policies := [] } :=
  (updateProcess_contract 7
      { process := [(⟨"p1", "d"⟩, ⟨3, 4, ⟨⟨"p1", "d"⟩, "x"⟩, some []⟩)],
        usersUpdatedAt := 0, users := [], policiesUpdatedAt := 0, policies := [] }
      ⟨⟨"p1", "d"⟩, ⟨⟨"p1", "d"⟩, "x"⟩⟩ (by decide)).2.2.1
    ⟨3, 4, ⟨⟨"p1", "d"⟩, "x"⟩, some []⟩ (by decide) rfl

/-- C10: a successful non-no-op `updateProcess` stores a record whose
`CreatedAt` is the zero time and whose metadata map is nil — the prior record's
`created_at` and metadata are dropped; only `Config` and `UpdatedAt` are set. -/
theorem updateProcess_fresh_record (now : Nat) (s : StoreState)
    (cmd : CommandUpdateProcess) (p : Process)
    (hp : alookup s.process cmd.id = some p)
    (hne : p.config.hash ≠ cmd.config.hash)
    (hfree : cmd.config.processID = cmd.id ∨ alookup s.process cmd.config.processID = none) :
    ∃ s1, updateProcess now s cmd = .ok s1 ∧
      alookup s1.process cmd.config.processID =
        some { createdAt := 0, updatedAt := now, config := cmd.config, metadata := none } :=
  updateProcess_stores_fresh now s cmd p hp hne hfree

/-- C10 witness: updating the process of a one-process store (created at 3,
with a non-empty metadata map) to a different payload stores a record with zero
`CreatedAt` and nil metadata. -/
theorem updateProcess_fresh_record_witness :
    ∃ s1, updateProcess 7
        { process := [(⟨"p1", "d"⟩, ⟨3, 4, ⟨⟨"p1", "d"⟩, "x"⟩, some [("k", "v")]⟩)],
          usersUpdatedAt := 0, users := [], policiesUpdatedAt := 0, policies := [] }
        ⟨⟨"p1", "d"⟩, ⟨⟨"p1", "d"⟩, "y"⟩⟩ = .ok s1 ∧
      alookup s1.process ⟨"p1", "d"⟩ =
        some { createdAt := 0, updatedAt := 7, config := ⟨⟨"p1", "d"⟩, "y"⟩,
               metadata := none } :=
  updateProcess_fresh_record 7
    { process := [(⟨"p1", "d"⟩, ⟨3, 4, ⟨⟨"p1", "d"⟩, "x"⟩, some [("k", "v")]⟩)],
      usersUpdatedAt := 0, users := [], policiesUpdatedAt := 0, policies := [] }
    ⟨⟨"p1", "d"⟩, ⟨⟨"p1", "d"⟩, "y"⟩⟩ ⟨3, 4, ⟨⟨"p1", "d"⟩, "x"⟩, some [("k", "v")]⟩
    (by decide) (by decide) (.inl rfl)

/-- The all-zero decoded payload bundle (what each `Apply` arm sees when
`Command.Data` does not carry its shape). -/
def zeroPayload : CmdPayload :=
  ⟨⟨⟨"", ""⟩, ""⟩, ⟨"", ""⟩, ⟨⟨"", ""⟩, ⟨⟨"", ""⟩, ""⟩⟩, ⟨"", ""⟩, "", none,
   ⟨"", ""⟩, "", ⟨"", ""⟩, "", "", []⟩

/-- The empty FSM state `NewStore` builds. -/
def emptyStore : StoreState := ⟨[], 0, [], 0, []⟩

/-- C3 counterexample: a log entry whose operation `"foo"` is outside the
claimed closed operation set makes `Apply` return nil — not an
`InvalidArgument` error value — with the state untouched. -/
theorem apply_unknown_op_cex :
    storeApply 0 emptyStore (some ("foo", zeroPayload)) = (none, emptyStore) := by
  decide

/-- C3 as amended: any operation outside the eight the store dispatches on
(`addProcess`, `removeProcess`, `updateProcess`, `setProcessMetadata`,
`addIdentity`, `updateIdentity`, `removeIdentity`, `setPolicies`) makes `Apply`
take the default arm: it returns nil (no error value) and leaves the state
unchanged. -/
theorem apply_unknown_op_returns_nil (now : Nat) (s : StoreState) (op : String)
    (d : CmdPayload)
    (h : op ∉ (["addProcess", "removeProcess", "updateProcess", "setProcessMetadata",
                "addIdentity", "updateIdentity", "removeIdentity", "setPolicies"] :
               List String)) :
    storeApply now s (some (op, d)) = (none, s) := by
  simp only [List.mem_cons, not_or] at h
  obtain ⟨h1, h2, h3, h4, h5, h6, h7, h8, -⟩ := h
  simp only [storeApply, if_neg h1, if_neg h2, if_neg h3, if_neg h4, if_neg h5,
    if_neg h6, if_neg h7, if_neg h8]

/-- C3 witness: the operation `"addNode"` — part of the claimed closed set but
absent from this store's dispatch — falls into the default arm on the empty
state. -/
theorem apply_unknown_op_returns_nil_witness :
    storeApply 0 emptyStore (some ("addNode", zeroPayload)) = (none, emptyStore) :=
  apply_unknown_op_returns_nil 0 emptyStore "addNode" zeroPayload (by decide)

/-- C2 counterexample: with a Raft leader elected locally but the FSM restore
incomplete, the cluster is degraded, yet `AddProcess` — which never consults
the degraded flag — submits its command to Raft instead of returning the
`Degraded` error. -/
theorem addProcess_ignores_degraded_cex :
    isDegraded ⟨true, false, true⟩ = true ∧
    clusterAddProcess ⟨true, false, true⟩ = .applied ∧
    clusterAddProcess ⟨true, false, true⟩ ≠ .errDegraded := by
  decide

/-- C2 as amended: whenever the degraded flag is true, the identity and policy
mutations (`AddIdentity`, `UpdateIdentity`, `RemoveIdentity`, `SetPolicies`)
return the `Degraded` error before forwarding or submitting anything;
`AddProcess` performs no degraded check and never returns that error. -/
theorem mutations_refuse_when_degraded (f : ClusterFlags) (valid : Bool)
    (h : isDegraded f = true) :
    clusterAddIdentity f valid = .errDegraded ∧
    clusterUpdateIdentity f = .errDegraded ∧
    clusterRemoveIdentity f = .errDegraded ∧
    clusterSetPolicies f = .errDegraded ∧
    clusterAddProcess f ≠ .errDegraded := by
  refine ⟨?_, ?_, ?_, ?_, ?_⟩
  · simp [clusterAddIdentity, h]
  · simp [clusterUpdateIdentity, h]
  · simp [clusterRemoveIdentity, h]
  · simp [clusterSetPolicies, h]
  · unfold clusterAddProcess
    split <;> simp

/-- C2 witness: a leaderless cluster refuses the four identity and policy
mutations with `Degraded`, while `AddProcess` still forwards. -/
theorem mutations_refuse_when_degraded_witness :
    clusterAddIdentity ⟨false, true, false⟩ true = .errDegraded ∧
    clusterUpdateIdentity ⟨false, true, false⟩ = .errDegraded ∧
    clusterRemoveIdentity ⟨false, true, false⟩ = .errDegraded ∧
    clusterSetPolicies ⟨false, true, false⟩ = .errDegraded ∧
    clusterAddProcess ⟨false, true, false⟩ ≠ .errDegraded :=
  mutations_refuse_when_degraded ⟨false, true, false⟩ true (by decide)

/-- C5: `GetURL` returns a URL exactly when the path is mapped to a node whose
inventory update is at most 2 seconds old, the node is known and its URL
builder accepts the path; in particular an unmapped path, a missing
`last_update`, a stale entry or an unknown node all fail with the `NotFound`
error. -/
theorem getURL_fresh_iff (now : Nat) (c : ClusterIndex)
    (nodes : List (String × ClusterNodeM)) (p u : String) :
    clusterGetURL now c nodes p = .ok u ↔
      ∃ id ts n, alookup c.fileid p = some id ∧
        alookup c.idupdate id = some ts ∧
        now - ts ≤ 2 ∧
        alookup nodes id = some n ∧
        nodeGetURL n p = .ok u := by
  constructor
  · intro h
    unfold clusterGetURL at h
    split at h
    · exact absurd h (by simp)
    · rename_i id hf
      split at h
      · exact absurd h (by simp)
      · rename_i ts ht
        split at h
        · exact absurd h (by simp)
        · rename_i hfresh
          split at h
          · exact absurd h (by simp)
          · rename_i n hn
            split at h
            · exact absurd h (by simp)
            · rename_i u1 hu
              injection h with h
              subst h
              exact ⟨id, ts, n, hf, ht, by omega, hn, hu⟩
  · rintro ⟨id, ts, n, h1, h2, h3, h4, h5⟩
    simp only [clusterGetURL, h1, h2, h4, h5,
      if_neg (show ¬now - ts > 2 by omega)]

/-- C6 (code path at a failing input): a node that previously reported
`["a"]` sends a `connected` update reporting `["b"]`; the consumer rebuilds
`fileid` and `idupdate` from the update, but writes the captured pre-update
list — not `state.Files` — into `idfiles`, so the node-to-files map still
holds `["a"]`. -/
theorem updateStep_keeps_stale_idfiles :
    updateStep ⟨[("a", "n")], [("n", ["a"])], [("n", 5)]⟩ ⟨"n", "connected", ["b"], 9⟩ =
      ⟨[("b", "n")], [("n", ["a"])], [("n", 9)]⟩ ∧
    alookup (updateStep ⟨[("a", "n")], [("n", ["a"])], [("n", 5)]⟩
        ⟨"n", "connected", ["b"], 9⟩).idfiles "n" ≠ some ["b"] := by
  decide

/-- C7 (code path at a failing input): a metrics tick whose peer query fails
first stores the fallback sample `cpu=100, ncpu=1, mem=0`, then — with no
`continue` — parses the zero-valued response and overwrites the sample with
`ncpu=0, cpu=(100-0)*0=0, mem=0`, so the stored sample is not the fallback the
spec describes. -/
theorem metricsTick_error_overwrites_fallback :
    metricsTick ⟨7, 42, 5, 9⟩ (.error ()) = ⟨0, 0, 0, 0⟩ ∧
    (metricsTick ⟨7, 42, 5, 9⟩ (.error ())).cpu ≠ 100 ∧
    (metricsTick ⟨7, 42, 5, 9⟩ (.error ())).ncpu ≠ 1 := by
  refine ⟨?_, ?_, ?_⟩ <;>
    simp [metricsTick, parseMetrics, ratToUInt, Resources.mk.injEq]

theorem sentinelTick_emit (st : SentinelState) (now : Nat) (lc : LastContact) :
    ((sentinelTick st now lc).2 = none ∧
      (sentinelTick st now lc).1.isEmergency = st.isEmergency) ∨
    (∃ b, (sentinelTick st now lc).2 = some b ∧ b = !st.isEmergency ∧
      (sentinelTick st now lc).1.isEmergency = b) := by
  simp only [sentinelTick]
  split_ifs with h1 h2
  · right
    exact ⟨true, rfl, by simp [h1.2], rfl⟩
  · right
    exact ⟨false, rfl, by simp [h2.2], rfl⟩
  · left
    exact ⟨rfl, rfl⟩

theorem sentinelRun_alternates (trace : List (Nat × LastContact)) :
    ∀ st : SentinelState, alternatesFrom st.isEmergency (sentinelRun st trace).2 := by
  induction trace with
  | nil => intro st; trivial
  | cons hd rest ih =>
      intro st
      obtain ⟨now, lc⟩ := hd
      rcases sentinelTick_emit st now lc with ⟨hn, hflag⟩ | ⟨b, hb, hbe, hflag⟩
      · simp only [sentinelRun, hn]
        have h := ih (sentinelTick st now lc).1
        rw [hflag] at h
        exact h
      · simp only [sentinelRun, hb]
        refine ⟨hbe, ?_⟩
        have h := ih (sentinelTick st now lc).1
        rw [hflag] at h
        exact h

theorem alternatesFrom_chain : ∀ (l : List Bool) (e : Bool),
    alternatesFrom e l → l.Chain' (fun a b => a ≠ b)
  | [], _, _ => List.chain'_nil
  | [_], _, _ => by simp
  | b :: c :: t, e, h => by
      unfold alternatesFrom at h
      obtain ⟨hb, hc⟩ := h
      have hcb : c = !b := by
        unfold alternatesFrom at hc
        exact hc.1
      rw [List.chain'_cons]
      refine ⟨?_, alternatesFrom_chain (c :: t) b hc⟩
      rw [hcb]
      cases b <;> decide

/-- C8: a sentinel tick emits the force-leadership signal exactly when the
last-contact duration exceeds 10 s outside the emergency state, emits the
release signal exactly when it is at most 10 s inside the emergency state, and
over any tick sequence the emitted signals strictly alternate — never two
consecutive signals of the same kind. -/
theorem sentinel_hysteresis (st : SentinelState) (now : Nat) (lc : LastContact)
    (st0 : SentinelState) (trace : List (Nat × LastContact)) :
    ((sentinelTick st now lc).2 = some true ↔
      10 < contactSince st now lc ∧ st.isEmergency = false) ∧
    ((sentinelTick st now lc).2 = some false ↔
      contactSince st now lc ≤ 10 ∧ st.isEmergency = true) ∧
    List.Chain' (fun a b => a ≠ b) (sentinelRun st0 trace).2 := by
  refine ⟨?_, ?_, alternatesFrom_chain _ _ (sentinelRun_alternates trace st0)⟩
  · simp only [sentinelTick]
    split_ifs with h1 h2
    · simp [h1]
    · simp [h1]
    · simp [h1]
  · simp only [sentinelTick]
    split_ifs with h1 h2
    · simp [h1.2]
    · simp [h2]
    · simp [h2]

/-- C9: on the Raft leader, a leave request for the local node when the Raft
configuration holds at most one server returns nil immediately: no leadership
transfer, no forwarding, no `removeNode` command, no server removal. -/
theorem leave_single_voter_noop (env : LeaveEnv) (servers : List (String × String))
    (hl : env.isRaftLeader = true)
    (hc : env.config = .ok servers)
    (hn : servers.length ≤ 1)
    (id0 : String) (hid : id0 = env.selfId) :
    clusterLeave env id0 = (.ok (), []) := by
  subst hid
  simp [clusterLeave, hl, hc, hn]

/-- C9 witness: the leader of a single-voter configuration asked to remove
itself does nothing and returns nil. -/
theorem leave_single_voter_noop_witness :
    clusterLeave ⟨"n1", true, .ok [("n1", "127.0.0.1:7000")], .ok (), .ok (), .ok ()⟩
      "n1" = (.ok (), []) :=
  leave_single_voter_noop
    ⟨"n1", true, .ok [("n1", "127.0.0.1:7000")], .ok (), .ok (), .ok ()⟩
    [("n1", "127.0.0.1:7000")] rfl rfl (by decide) "n1" rfl

end RestreamerCore
